import Mathlib

/-!
# SteamVR-Dashboard-KeyboardNav: driver shim and key helper

A shallow embedding of `src/driver_shim/HmdShimDriver.cpp` and of the key
callback of `src/client_utility/client_utility.cpp`.

* The two processes and the operating system are one `System` value: the
  fields of the shim object, the state of the wrapped driver, the contents of
  the named mapping `KeyboardNav.SharedMemory`, the helper's global pointer,
  and the ordered list of calls made to the outside (wrapped driver, OpenVR,
  Win32).
* What the outside answers (the handle returned by `CreateFileMapping`, the
  result of `WaitForSingleObject`, whether `CreateProcess` succeeded, ...) is
  an explicit argument of each operation.
* A store or load through a null pointer, and the assignment to a joinable
  `std::thread`, end the run with a `Fault`.
* Threads are interleaved at the granularity of one supervisor loop iteration
  and one callback invocation (`Action`, `run`).
* Tracing macros (`TraceLoggingWrite*`) are not modelled.
-/

namespace KeyboardNav

/-! ## Platform constants (Windows SDK, OpenVR) -/

/-- The `WM_KEYDOWN` window message of the Windows SDK. -/
def WM_KEYDOWN : Nat := 0x0100

/-- The `HC_ACTION` hook code of the Windows SDK. -/
def HC_ACTION : Int := 0

/-- Virtual key code of the left Windows key. -/
def VK_LWIN : Nat := 0x5B

/-- Virtual key code of the right Windows key. -/
def VK_RWIN : Nat := 0x5C

/-- The constant `vr::k_unTrackedDeviceIndexInvalid` of openvr_driver.h. -/
def k_unTrackedDeviceIndexInvalid : Nat := 0xFFFFFFFF

/-- The constant `vr::k_ulInvalidInputComponentHandle` of openvr_driver.h. -/
def k_ulInvalidInputComponentHandle : Nat := 0

/-- The part of `vr::ETrackedDeviceProperty` that the shim uses. -/
inductive ETrackedDeviceProperty
  | Prop_InputProfilePath_String
deriving DecidableEq, Repr

/-! ## Data -/

/-- Modelled from the spec: SharedMemory.h is not among the sources. The spec
describes the shared record as "one field: a 32-bit flag"; both source files
name that field `sendClickEvent`. -/
structure SharedMemory where
  sendClickEvent : Nat
deriving DecidableEq, Repr

/-- Size in bytes of the shared record, `sizeof(shared::SharedMemory)`. -/
def sizeofSharedMemory : Nat := 4

/-- The Win32 `PROCESS_INFORMATION` record; `{}` is all zeroes. -/
structure PROCESS_INFORMATION where
  hProcess : Nat := 0
  hThread : Nat := 0
  dwProcessId : Nat := 0
  dwThreadId : Nat := 0
deriving DecidableEq, Repr

/-- The Win32 `KBDLLHOOKSTRUCT` record that `lParam` points to. -/
structure KBDLLHOOKSTRUCT where
  vkCode : Nat
  scanCode : Nat
  flags : Nat
  time : Nat
  dwExtraInfo : Nat
deriving DecidableEq, Repr

/-- A call on the wrapped driver `m_shimmedDevice`, with its arguments. -/
inductive ShimmedCall
  | Activate (unObjectId : Nat)
  | Deactivate
  | EnterStandby
  | GetComponent (pchComponentNameAndVersion : String)
  | GetPose
  | DebugRequest (pchRequest : String) (unResponseBufferSize : Nat)
deriving DecidableEq, Repr

/-- A call made to the outside, in program order. -/
inductive Event
  | shimmed (c : ShimmedCall)
  | TrackedDeviceToPropertyContainer (unDevice : Nat)
  | SetStringProperty (container : Nat) (prop : ETrackedDeviceProperty) (value : String)
  | CreateBooleanComponent (container : Nat) (pchName : String)
  | UpdateBooleanComponent (component : Nat) (value : Bool) (fTimeOffset : Nat)
  | CreateFileMapping (size : Nat) (name : String)
  | MapViewOfFile (h : Nat) (size : Nat)
  | memset (p : Nat) (value : Nat) (size : Nat)
  | UnmapViewOfFile (p : Nat)
  | CloseHandle (h : Nat)
  | threadStart
  | threadJoin
  | sleep_for (ms : Nat)
  | WaitForSingleObject (h : Nat) (ms : Nat)
  | CreateProcess (application : List String) (currentDirectory : List String)
  | InterlockedExchange (value : Nat)
  | DriverLog (format : String) (args : List Nat)
  | IsDashboardVisible
  | ShowDashboard (key : String)
  | CallNextHookEx (nCode : Int) (wParam : Nat) (lParam : KBDLLHOOKSTRUCT)
deriving DecidableEq, Repr

/-- How a run ends abnormally. -/
inductive Fault
  /-- A load or store through a null pointer. -/
  | accessViolation
  /-- The call `std::terminate()`, made when a joinable `std::thread` is assigned to. -/
  | terminate
deriving DecidableEq, Repr

/-- The interface `vr::ITrackedDeviceServerDriver` as implemented by the wrapped
driver: every operation is a function of the wrapped driver's state `W`.
`P` stands for `vr::DriverPose_t`; a `void*` is a number; the response buffer
of `DebugRequest` is returned as a string. -/
structure ITrackedDeviceServerDriver (W P : Type) where
  Activate : W → Nat → Nat × W
  Deactivate : W → W
  EnterStandby : W → W
  GetComponent : W → String → Nat × W
  GetPose : W → P × W
  DebugRequest : W → String → Nat → String × W

/-- The data members of `HmdShimDriver` (lines 190-198), `m_shimmedDevice`
apart, whose pointee is `System.device`. A null pointer and an empty
`wil::unique_handle` are `none`; `m_updateThread` is `joinable()`. -/
structure HmdShimDriver where
  m_deviceIndex : Nat := k_unTrackedDeviceIndexInvalid
  m_clickComponent : Nat := k_ulInvalidInputComponentHandle
  m_sharedFileHandle : Option Nat := none
  m_sharedMemory : Option Nat := none
  m_active : Bool := false
  m_updateThread : Bool := false
  m_clientProcessInfo : PROCESS_INFORMATION := {}
  m_inClickEvent : Bool := false
deriving DecidableEq, Repr

/-- The shim, the wrapped driver, the named mapping, the helper's global
pointer `g_sharedMemory` and the calls made so far. -/
structure System (W : Type) where
  shim : HmdShimDriver
  device : W
  shared : SharedMemory
  g_sharedMemory : Option Nat
  trace : List Event
deriving DecidableEq, Repr

/-- Outcome of one pass through a loop body: go on, or `break`. -/
inductive Loop (α : Type)
  | next (a : α)
  | done (a : α)
deriving DecidableEq, Repr

/-- The state carried by a loop outcome. -/
def Loop.state {α : Type} : Loop α → α
  | .next a => a
  | .done a => a

variable {W P : Type}

/-- Record a call to the outside. -/
def emit (e : Event) (m : System W) : System W :=
  { m with trace := m.trace ++ [e] }

/-- The values sent to the click component by `UpdateBooleanComponent`, oldest first. -/
def updatesOf : List Event → List Bool
  | [] => []
  | .UpdateBooleanComponent _ v _ :: t => v :: updatesOf t
  | _ :: t => updatesOf t

/-- The values the click component takes over a run: `false` when created,
then every value sent to it. -/
def observable (t : List Event) : List Bool :=
  false :: updatesOf t

/-- The current value of the click component. -/
def componentValue (t : List Event) : Bool :=
  (updatesOf t).getLast?.getD false

/-- The launch attempts (`CreateProcess` calls) in a list of calls. -/
def launchAttempts : List Event → Nat
  | [] => 0
  | .CreateProcess _ _ :: t => launchAttempts t + 1
  | _ :: t => launchAttempts t

/-- The state of a new shim object around a wrapped driver in state `w`,
the helper not started. -/
def CreateHmdShimDriver (w : W) : System W :=
  { shim := {}, device := w, shared := { sendClickEvent := 0 }, g_sharedMemory := none, trace := [] }

/-! ## `HmdShimDriver::Activate` (lines 43-74) -/

/-- What the outside answers during `Activate`. -/
structure ActivateEnv where
  /-- Result of `TrackedDeviceToPropertyContainer`. -/
  container : Nat
  /-- Handle stored by `CreateBooleanComponent` into `m_clickComponent`. -/
  clickComponent : Nat
  /-- Result of `CreateFileMapping`; `none` is the null handle. -/
  fileMapping : Option Nat
  /-- Result of `MapViewOfFile`; `none` is the null pointer. -/
  view : Option Nat
deriving DecidableEq, Repr

/-- Lines 60-66: replace the mapping handle, map the view and clear it. In
`*m_sharedFileHandle.put() = CreateFileMapping(...)` the right operand is
evaluated first (C++17), then `put()` releases the handle held so far. -/
def Activate.createChannel (env : ActivateEnv) (m : System W) : Except Fault (System W) :=
  let m := emit (.CreateFileMapping sizeofSharedMemory "KeyboardNav.SharedMemory") m
  let m := match m.shim.m_sharedFileHandle with
    | some h => emit (.CloseHandle h) m
    | none => m
  let m := { m with shim := { m.shim with m_sharedFileHandle := env.fileMapping } }
  match env.fileMapping with
  | none => .ok m
  | some h =>
    let m := emit (.MapViewOfFile h sizeofSharedMemory) m
    let m := { m with shim := { m.shim with m_sharedMemory := env.view } }
    match env.view with
    | none => .error .accessViolation
    | some p => .ok (emit (.memset p 0 sizeofSharedMemory) { m with shared := { sendClickEvent := 0 } })

/-- Lines 68-69: mark active and start the supervisor thread. -/
def Activate.startThread (m : System W) : Except Fault (System W) :=
  let m := { m with shim := { m.shim with m_active := true } }
  if m.shim.m_updateThread then .error .terminate
  else .ok (emit .threadStart { m with shim := { m.shim with m_updateThread := true } })

/-- The method `HmdShimDriver::Activate`: the returned status and the new state. -/
def Activate (d : ITrackedDeviceServerDriver W P) (env : ActivateEnv) (unObjectId : Nat)
    (m : System W) : Except Fault (Nat × System W) :=
  let r := d.Activate m.device unObjectId
  let status := r.1
  let m := emit (.shimmed (.Activate unObjectId)) { m with device := r.2 }
  let m := { m with shim := { m.shim with m_deviceIndex := unObjectId } }
  let m := emit (.TrackedDeviceToPropertyContainer m.shim.m_deviceIndex) m
  let m := emit (.SetStringProperty env.container .Prop_InputProfilePath_String
    "\x7bkeyboard_nav\x7d/input/keyboard_nav_hmd_profile.json") m
  let m := emit (.CreateBooleanComponent env.container "/input/system/click") m
  let m := { m with shim := { m.shim with m_clickComponent := env.clickComponent } }
  match Activate.createChannel env m with
  | .error f => .error f
  | .ok m =>
    match Activate.startThread m with
    | .error f => .error f
    | .ok m => .ok (status, m)

/-! ## `HmdShimDriver::Deactivate` (lines 76-99) -/

/-- Lines 80-92: stop the thread, release the channel, invalidate the index. -/
def Deactivate.teardown (m : System W) : System W :=
  let wasActive := m.shim.m_active
  let m := { m with shim := { m.shim with m_active := false } }
  let m := if wasActive && m.shim.m_updateThread then
      emit .threadJoin { m with shim := { m.shim with m_updateThread := false } }
    else m
  let m := match m.shim.m_sharedMemory with
    | some p => { emit (.UnmapViewOfFile p) m with shim := { m.shim with m_sharedMemory := none } }
    | none => m
  let m := match m.shim.m_sharedFileHandle with
    | some h => { emit (.CloseHandle h) m with shim := { m.shim with m_sharedFileHandle := none } }
    | none => m
  { m with shim := { m.shim with m_deviceIndex := k_unTrackedDeviceIndexInvalid } }

/-- The method `HmdShimDriver::Deactivate`. -/
def Deactivate (d : ITrackedDeviceServerDriver W P) (m : System W) : System W :=
  let m := Deactivate.teardown m
  let m := emit (.shimmed .Deactivate) { m with device := d.Deactivate m.device }
  emit (.DriverLog "Deactivated device shimmed with HmdShimDriver" []) m

/-! ## Forwarding methods (lines 101-115) -/

/-- The method `HmdShimDriver::EnterStandby`. -/
def EnterStandby (d : ITrackedDeviceServerDriver W P) (m : System W) : System W :=
  emit (.shimmed .EnterStandby) { m with device := d.EnterStandby m.device }

/-- The method `HmdShimDriver::GetComponent`. -/
def GetComponent (d : ITrackedDeviceServerDriver W P) (pchComponentNameAndVersion : String)
    (m : System W) : Nat × System W :=
  let r := d.GetComponent m.device pchComponentNameAndVersion
  (r.1, emit (.shimmed (.GetComponent pchComponentNameAndVersion)) { m with device := r.2 })

/-- The method `HmdShimDriver::GetPose`. -/
def GetPose (d : ITrackedDeviceServerDriver W P) (m : System W) : P × System W :=
  let r := d.GetPose m.device
  (r.1, emit (.shimmed .GetPose) { m with device := r.2 })

/-- The method `HmdShimDriver::DebugRequest`; the first component is what the
wrapped driver wrote to the response buffer. -/
def DebugRequest (d : ITrackedDeviceServerDriver W P) (pchRequest : String)
    (unResponseBufferSize : Nat) (m : System W) : String × System W :=
  let r := d.DebugRequest m.device pchRequest unResponseBufferSize
  (r.1, emit (.shimmed (.DebugRequest pchRequest unResponseBufferSize)) { m with device := r.2 })

/-! ## `HmdShimDriver::BackgroundThread` (lines 117-188) -/

/-- What the outside answers during one iteration of the supervisor loop. -/
structure PollEnv where
  /-- Result of `WaitForSingleObject(hProcess, 0)`: 0 when the process has exited. -/
  waitResult : Nat
  /-- Components of the path returned by `GetModuleFileNameW`. -/
  modulePath : List String
  /-- Outcome of `CreateProcess`: the record it filled in, or the `GetLastError` code. -/
  launch : Except Nat PROCESS_INFORMATION
deriving Repr

/-- Lines 139-147: forget a client process that has exited. -/
def BackgroundThread.checkClient (env : PollEnv) (m : System W) : System W :=
  if m.shim.m_clientProcessInfo.dwProcessId ≠ 0 then
    let m := emit (.WaitForSingleObject m.shim.m_clientProcessInfo.hProcess 0) m
    if env.waitResult = 0 then
      let m := emit (.CloseHandle m.shim.m_clientProcessInfo.hProcess) m
      { m with shim := { m.shim with m_clientProcessInfo := {} } }
    else m
  else m

/-- Lines 149-174: start the client process when none is recorded. A path is
its list of components and `parent_path` drops the last one. A failed
`CreateProcess` leaves `m_clientProcessInfo` as it was. -/
def BackgroundThread.startClient (env : PollEnv) (m : System W) : System W :=
  if m.shim.m_clientProcessInfo.dwProcessId = 0 then
    let root := env.modulePath.dropLast
    let m := emit (.CreateProcess (root ++ ["client_utility.exe"]) root.dropLast.dropLast) m
    let m := match env.launch with
      | .ok info => { m with shim := { m.shim with m_clientProcessInfo := info } }
      | .error code => emit (.DriverLog "Failed to start client utility: %d" [code]) m
    emit (.CloseHandle m.shim.m_clientProcessInfo.hThread) m
  else m

/-- Lines 176-182, the flag step: exchange the shared flag with 0 and update
the click component. -/
def BackgroundThread.flagStep (m : System W) : Except Fault (System W) :=
  match m.shim.m_sharedMemory with
  | none => .error .accessViolation
  | some _ =>
    let previous := m.shared.sendClickEvent
    let m := emit (.InterlockedExchange 0) { m with shared := { sendClickEvent := 0 } }
    if previous ≠ 0 then
      let m := emit (.UpdateBooleanComponent m.shim.m_clickComponent true 0) m
      .ok { m with shim := { m.shim with m_inClickEvent := true } }
    else if m.shim.m_inClickEvent then
      let m := emit (.UpdateBooleanComponent m.shim.m_clickComponent false 0) m
      .ok { m with shim := { m.shim with m_inClickEvent := false } }
    else .ok m

/-- One pass through the body of `while (true)` (lines 124-183). -/
def BackgroundThread.iteration (env : PollEnv) (m : System W) : Except Fault (Loop (System W)) :=
  let m := emit (.sleep_for 5) m
  if !m.shim.m_active then .ok (.done m)
  else
    let m := BackgroundThread.checkClient env m
    let m := BackgroundThread.startClient env m
    match BackgroundThread.flagStep m with
    | .error f => .error f
    | .ok m => .ok (.next m)

/-- The loop `while (true)` over the answers of its successive iterations;
the outcome is `next` when the answers run out before the loop is left. -/
def BackgroundThread.loop : List PollEnv → System W → Except Fault (Loop (System W))
  | [], m => .ok (.next m)
  | env :: envs, m =>
    match BackgroundThread.iteration env m with
    | .error f => .error f
    | .ok (.done m) => .ok (.done m)
    | .ok (.next m) => BackgroundThread.loop envs m

/-- The thread function `HmdShimDriver::BackgroundThread`, run alone: the
greeting, the loop, and the farewell once the loop is left. The call
`SetThreadDescription` is not recorded. -/
def BackgroundThread (envs : List PollEnv) (m : System W) : Except Fault (Loop (System W)) :=
  let m := emit (.DriverLog "Hello from HmdShimDriver::UpdateThread" []) m
  match BackgroundThread.loop envs m with
  | .error f => .error f
  | .ok (.done m) => .ok (.done (emit (.DriverLog "Bye from HmdShimDriver::UpdateThread" []) m))
  | .ok (.next m) => .ok (.next m)

/-! ## `CallbackProc` (client_utility.cpp, lines 40-56) -/

/-- The hook procedure `CallbackProc`. `next` is what `CallNextHookEx` returns,
`visible` what `IsDashboardVisible` answers. -/
def CallbackProc (next : Int → Nat → KBDLLHOOKSTRUCT → Int) (visible : Bool)
    (nCode : Int) (wParam : Nat) (lParam : KBDLLHOOKSTRUCT) (m : System W) :
    Except Fault (Int × System W) :=
  let body : Except Fault (System W) :=
    if wParam = WM_KEYDOWN ∧ nCode = HC_ACTION then
      if lParam.vkCode = VK_LWIN ∨ lParam.vkCode = VK_RWIN then
        let m := emit .IsDashboardVisible m
        if !visible then .ok (emit (.ShowDashboard "system.desktop.1") m)
        else
          match m.g_sharedMemory with
          | none => .error .accessViolation
          | some _ => .ok { m with shared := { sendClickEvent := 1 } }
      else .ok m
    else .ok m
  match body with
  | .error f => .error f
  | .ok m => .ok (next nCode wParam lParam, emit (.CallNextHookEx nCode wParam lParam) m)

/-! ## Interleavings -/

/-- One atomic step of either process. -/
inductive Action
  /-- The platform invokes the helper's hook procedure. -/
  | key (visible : Bool) (nCode : Int) (wParam : Nat) (lParam : KBDLLHOOKSTRUCT)
  /-- The supervisor thread runs one loop iteration. -/
  | poll (env : PollEnv)

/-- Run one action; a supervisor thread that has left its loop polls no more. -/
def step (next : Int → Nat → KBDLLHOOKSTRUCT → Int) (a : Action) (l : Loop (System W)) :
    Except Fault (Loop (System W)) :=
  match a, l with
  | .key visible nCode wParam lParam, .next m =>
    match CallbackProc next visible nCode wParam lParam m with
    | .error f => .error f
    | .ok r => .ok (.next r.2)
  | .key visible nCode wParam lParam, .done m =>
    match CallbackProc next visible nCode wParam lParam m with
    | .error f => .error f
    | .ok r => .ok (.done r.2)
  | .poll env, .next m => BackgroundThread.iteration env m
  | .poll _, .done m => .ok (.done m)

/-- Run a schedule of actions from left to right. -/
def run (next : Int → Nat → KBDLLHOOKSTRUCT → Int) :
    List Action → Loop (System W) → Except Fault (Loop (System W))
  | [], l => .ok l
  | a :: as, l =>
    match step next a l with
    | .error f => .error f
    | .ok l => run next as l

/-- A press of the left Windows key while the overlay is visible: the one
event on which the helper writes the flag. -/
def winKeyDown : Action :=
  .key true HC_ACTION WM_KEYDOWN
    { vkCode := VK_LWIN, scanCode := 0x5B, flags := 1, time := 0, dwExtraInfo := 0 }

/-- An action on which the helper writes the flag: a key-down of a Windows key
while the overlay is visible. -/
def Action.isWrite : Action → Bool
  | .key visible nCode wParam lParam =>
    visible && decide (nCode = HC_ACTION) && decide (wParam = WM_KEYDOWN)
      && (decide (lParam.vkCode = VK_LWIN) || decide (lParam.vkCode = VK_RWIN))
  | .poll _ => false

/-- The schedule in which the supervisor polls once for every element of `es`. -/
def polls (es : List PollEnv) : List Action :=
  es.map .poll

/-- The schedule made of consecutive poll intervals: in each, some key actions
and then one poll. -/
def intervals : List (List Action × PollEnv) → List Action
  | [] => []
  | r :: rs => r.1 ++ [.poll r.2] ++ intervals rs

/-- No two adjacent values of the list are both `false`. -/
def noRepeatedFalse (l : List Bool) : Prop :=
  l.Chain' (fun a b => a = true ∨ b = true)

instance (l : List Bool) : Decidable (noRepeatedFalse l) := by
  unfold noRepeatedFalse
  infer_instance

/-- The shim is active with a mapped channel, and the helper has its view. -/
def Running (m : System W) : Prop :=
  m.shim.m_active = true ∧ m.shim.m_sharedMemory.isSome = true ∧ m.g_sharedMemory.isSome = true

instance (m : System W) : Decidable (Running m) := by
  unfold Running
  infer_instance

/-- The calls of one launch attempt (lines 161-173) with the module path of
`env`, when the record held `old` before the attempt. -/
def launchCalls (env : PollEnv) (old : PROCESS_INFORMATION) : List Event :=
  [.CreateProcess (env.modulePath.dropLast ++ ["client_utility.exe"])
      env.modulePath.dropLast.dropLast.dropLast] ++
  (match env.launch with
    | .ok info => [.CloseHandle info.hThread]
    | .error code => [.DriverLog "Failed to start client utility: %d" [code],
        .CloseHandle old.hThread])

/-- The client record after one launch attempt. -/
def launched (env : PollEnv) (old : PROCESS_INFORMATION) : PROCESS_INFORMATION :=
  match env.launch with
  | .ok info => info
  | .error _ => old

/-- The calls of the flag step (lines 176-182) on a mapped channel. -/
def flagCalls (component flag : Nat) (inClick : Bool) : List Event :=
  [.InterlockedExchange 0] ++
  (if flag ≠ 0 then [.UpdateBooleanComponent component true 0]
   else if inClick then [.UpdateBooleanComponent component false 0]
   else [])

/-- The update that one flag step sends, given the flag it exchanged out and
the in-click memory. -/
def pulse (flag : Nat) (inClick : Bool) : List Bool :=
  if flag ≠ 0 then [true] else if inClick then [false] else []

/-! ## Concrete instances used in the examples -/

/-- A wrapped driver whose state counts the calls it received and whose
`Activate` reports the status 108. -/
def sampleDriver : ITrackedDeviceServerDriver Nat Nat where
  Activate := fun w _ => (108, w + 1)
  Deactivate := fun w => w + 1
  EnterStandby := fun w => w + 1
  GetComponent := fun w name => (name.length, w + 1)
  GetPose := fun w => (w, w + 1)
  DebugRequest := fun w request _ => (request, w + 1)

/-- A `CallNextHookEx` that returns the hook code. -/
def sampleNext : Int → Nat → KBDLLHOOKSTRUCT → Int :=
  fun nCode _ _ => nCode

/-- Answers of an `Activate` in which both `CreateFileMapping` and
`MapViewOfFile` succeed. -/
def envMapped : ActivateEnv :=
  { container := 3, clickComponent := 9, fileMapping := some 44, view := some 4096 }

/-- Answers of an `Activate` in which `CreateFileMapping` fails. -/
def envNoMapping : ActivateEnv :=
  { container := 3, clickComponent := 9, fileMapping := none, view := none }

/-- Answers of an `Activate` in which `CreateFileMapping` succeeds and
`MapViewOfFile` returns null. -/
def envNoView : ActivateEnv :=
  { container := 3, clickComponent := 9, fileMapping := some 44, view := none }

/-- Answers of a poll in which the client is still running and a launch would fail. -/
def envLaunchFails : PollEnv :=
  { waitResult := 258, modulePath := ["C:", "drv", "bin", "win64", "driver_keyboard_nav.dll"],
    launch := .error 2 }

/-- Answers of a poll in which the client has exited and a launch succeeds. -/
def envExitedRelaunched : PollEnv :=
  { waitResult := 0, modulePath := ["C:", "drv", "bin", "win64", "driver_keyboard_nav.dll"],
    launch := .ok { hProcess := 60, hThread := 61, dwProcessId := 4242, dwThreadId := 4243 } }

/-- A shim that is active with a mapped channel, the helper attached, the flag
clear, no client process recorded and nothing sent to the component yet. -/
def sampleActive : System Nat :=
  { shim := { m_deviceIndex := 0, m_clickComponent := 9, m_sharedFileHandle := some 44,
              m_sharedMemory := some 4096, m_active := true, m_updateThread := true },
    device := 1, shared := { sendClickEvent := 0 }, g_sharedMemory := some 8192, trace := [] }

/-- The state `sampleActive` with a client process recorded as running. -/
def sampleSupervising : System Nat :=
  { sampleActive with
    shim := { sampleActive.shim with
      m_clientProcessInfo := { hProcess := 50, hThread := 51, dwProcessId := 4141, dwThreadId := 4142 } } }

/-! ## Basic facts -/

theorem updatesOf_append (a b : List Event) : updatesOf (a ++ b) = updatesOf a ++ updatesOf b := by
  induction a with
  | nil => rfl
  | cons e t ih => cases e <;> simp [updatesOf, ih]

theorem launchAttempts_append (a b : List Event) :
    launchAttempts (a ++ b) = launchAttempts a + launchAttempts b := by
  induction a with
  | nil => simp [launchAttempts]
  | cons e t ih => cases e <;> simp [launchAttempts, ih]; omega

/-- The update that the flag step sends for a given flag value and in-click memory. -/
theorem flagStep_mapped (m : System W) (p : Nat) (hmem : m.shim.m_sharedMemory = some p) :
    BackgroundThread.flagStep m = .ok
      { m with
        shim := { m.shim with m_inClickEvent := decide (m.shared.sendClickEvent ≠ 0) }
        shared := { sendClickEvent := 0 }
        trace := m.trace ++ [.InterlockedExchange 0] ++
          (if m.shared.sendClickEvent ≠ 0 then [.UpdateBooleanComponent m.shim.m_clickComponent true 0]
           else if m.shim.m_inClickEvent then [.UpdateBooleanComponent m.shim.m_clickComponent false 0]
           else []) } := by
  unfold BackgroundThread.flagStep
  rw [hmem]
  by_cases hz : m.shared.sendClickEvent = 0
  · cases hin : m.shim.m_inClickEvent
    · obtain ⟨shim, device, shared, g, trace⟩ := m
      obtain ⟨a, b, c, d, e, f, i, j⟩ := shim
      simp_all [emit]
    · simp [hz, hin, emit]
  · simp [hz, emit]

/-- The liveness check changes only the client record and the trace, and sends
nothing to the click component. -/
theorem checkClient_frame (env : PollEnv) (m : System W) :
    ∃ info t, updatesOf t = [] ∧
      BackgroundThread.checkClient env m =
        { m with shim := { m.shim with m_clientProcessInfo := info }, trace := m.trace ++ t } := by
  unfold BackgroundThread.checkClient
  by_cases hpid : m.shim.m_clientProcessInfo.dwProcessId = 0
  · exact ⟨m.shim.m_clientProcessInfo, [], rfl, by simp [hpid]⟩
  · by_cases hw : env.waitResult = 0
    · exact ⟨{}, [.WaitForSingleObject m.shim.m_clientProcessInfo.hProcess 0,
        .CloseHandle m.shim.m_clientProcessInfo.hProcess], rfl, by simp [hpid, hw, emit]⟩
    · exact ⟨m.shim.m_clientProcessInfo, [.WaitForSingleObject m.shim.m_clientProcessInfo.hProcess 0],
        rfl, by simp [hpid, hw, emit]⟩

/-- The launch step changes only the client record and the trace, and sends
nothing to the click component. -/
theorem startClient_frame (env : PollEnv) (m : System W) :
    ∃ info t, updatesOf t = [] ∧
      BackgroundThread.startClient env m =
        { m with shim := { m.shim with m_clientProcessInfo := info }, trace := m.trace ++ t } := by
  unfold BackgroundThread.startClient
  by_cases hpid : m.shim.m_clientProcessInfo.dwProcessId = 0
  · cases hl : env.launch with
    | ok info =>
      exact ⟨info, [.CreateProcess (env.modulePath.dropLast ++ ["client_utility.exe"])
        env.modulePath.dropLast.dropLast.dropLast, .CloseHandle info.hThread], rfl,
        by simp [hpid, emit]⟩
    | error code =>
      exact ⟨m.shim.m_clientProcessInfo, [.CreateProcess (env.modulePath.dropLast ++ ["client_utility.exe"])
        env.modulePath.dropLast.dropLast.dropLast,
        .DriverLog "Failed to start client utility: %d" [code],
        .CloseHandle m.shim.m_clientProcessInfo.hThread], rfl, by simp [hpid, emit]⟩
  · exact ⟨m.shim.m_clientProcessInfo, [], rfl, by simp [hpid]⟩

/-- One loop iteration of an active shim with a mapped channel: it goes on,
clears the flag, remembers whether the flag was set, and sends exactly the
update of the flag step. -/
theorem iteration_mapped (env : PollEnv) (m : System W) (p : Nat)
    (hactive : m.shim.m_active = true) (hmem : m.shim.m_sharedMemory = some p) :
    ∃ info t, updatesOf t = [] ∧
      BackgroundThread.iteration env m = .ok (.next
        { m with
          shim := { m.shim with
            m_clientProcessInfo := info
            m_inClickEvent := decide (m.shared.sendClickEvent ≠ 0) }
          shared := { sendClickEvent := 0 }
          trace := m.trace ++ t ++
            (if m.shared.sendClickEvent ≠ 0 then [.UpdateBooleanComponent m.shim.m_clickComponent true 0]
             else if m.shim.m_inClickEvent then [.UpdateBooleanComponent m.shim.m_clickComponent false 0]
             else []) }) := by
  obtain ⟨i1, t1, ht1, h1⟩ := checkClient_frame env (emit (.sleep_for 5) m)
  obtain ⟨i2, t2, ht2, h2⟩ := startClient_frame env (BackgroundThread.checkClient env (emit (.sleep_for 5) m))
  refine ⟨i2, [.sleep_for 5] ++ t1 ++ t2 ++ [.InterlockedExchange 0], ?_, ?_⟩
  · simp [updatesOf_append, ht1, ht2, updatesOf]
  · unfold BackgroundThread.iteration
    have ha : (emit (.sleep_for 5) m).shim.m_active = true := hactive
    simp only [ha, Bool.not_true, Bool.false_eq_true, if_false]
    rw [h2, h1]
    rw [flagStep_mapped _ p (by simpa [emit] using hmem)]
    simp [emit, List.append_assoc]

/-- An active shim whose channel pointer is null faults in every loop iteration. -/
theorem iteration_null (env : PollEnv) (m : System W)
    (hactive : m.shim.m_active = true) (hmem : m.shim.m_sharedMemory = none) :
    BackgroundThread.iteration env m = .error .accessViolation := by
  obtain ⟨i1, t1, _, h1⟩ := checkClient_frame env (emit (.sleep_for 5) m)
  obtain ⟨i2, t2, _, h2⟩ := startClient_frame env (BackgroundThread.checkClient env (emit (.sleep_for 5) m))
  unfold BackgroundThread.iteration
  have ha : (emit (.sleep_for 5) m).shim.m_active = true := hactive
  simp only [ha, Bool.not_true, Bool.false_eq_true, if_false]
  rw [h2, h1]
  simp [BackgroundThread.flagStep, emit, hmem]

/-- Once the active flag is clear the thread leaves its loop at the first
check, having made no call other than the sleep and its two log lines. -/
theorem BackgroundThread_inactive (env : PollEnv) (envs : List PollEnv) (m : System W)
    (hinactive : m.shim.m_active = false) :
    BackgroundThread (env :: envs) m = .ok (.done
      { m with
        trace := m.trace ++ [.DriverLog "Hello from HmdShimDriver::UpdateThread" [],
          .sleep_for 5, .DriverLog "Bye from HmdShimDriver::UpdateThread" []] }) := by
  simp [BackgroundThread, BackgroundThread.loop, BackgroundThread.iteration, emit, hinactive]

/-- Whenever `Activate` returns, it returns the status of the wrapped driver;
it returns unless the view is null behind a valid mapping handle or the thread
member is still joinable. -/
theorem Activate_status (d : ITrackedDeviceServerDriver W P) (env : ActivateEnv) (unObjectId : Nat)
    (m : System W) (hthread : m.shim.m_updateThread = false)
    (hview : env.fileMapping = none ∨ env.view ≠ none) :
    ∃ m', Activate d env unObjectId m = .ok ((d.Activate m.device unObjectId).1, m') := by
  unfold Activate Activate.createChannel Activate.startThread
  rcases hf : env.fileMapping with _ | h
  · cases hh : m.shim.m_sharedFileHandle <;> simp [emit, hh, hthread]
  · rcases hv : env.view with _ | p
    · simp [hf, hv] at hview
    · cases hh : m.shim.m_sharedFileHandle <;> simp [emit, hh, hthread]

/-- With a valid mapping handle and a null view, `Activate` never returns: the
`memset` of line 65 faults, whatever the wrapped driver reported. -/
theorem Activate_null_view (d : ITrackedDeviceServerDriver W P) (env : ActivateEnv)
    (unObjectId h : Nat) (m : System W) (hmap : env.fileMapping = some h) (hview : env.view = none) :
    Activate d env unObjectId m = .error .accessViolation := by
  unfold Activate Activate.createChannel
  cases hh : m.shim.m_sharedFileHandle <;> simp [emit, hh, hmap, hview]

/-- C1 (code defect): `Activate` does not return the wrapped driver's status for
every outcome of the later steps. With a valid mapping handle and a null view
(answers `envNoView`), line 65 clears four bytes at the null pointer and the
call ends in an access violation, although the wrapped driver reported 108;
with both steps succeeding (`envMapped`) and with `CreateFileMapping` failing
(`envNoMapping`) the status 108 is returned. -/
theorem C1_Activate_null_view_faults :
    (sampleDriver.Activate 1 0).1 = 108 ∧
    Activate sampleDriver envNoView 0 (CreateHmdShimDriver 1) = .error .accessViolation ∧
    (Activate sampleDriver envMapped 0 (CreateHmdShimDriver 1)).map Prod.fst = .ok 108 ∧
    (Activate sampleDriver envNoMapping 0 (CreateHmdShimDriver 1)).map Prod.fst = .ok 108 :=
  ⟨rfl, rfl, rfl, rfl⟩

/-- C4 (code defect): after an `Activate` in which `CreateFileMapping` fails
(answers `envNoMapping`) the shim is active with a null `m_sharedMemory`, and
the first supervisor iteration does not skip click delivery: line 176
exchanges through the null pointer and the iteration ends in an access
violation. When the handle is valid and the view is null, `Activate` itself
ends in an access violation. -/
theorem C4_null_channel_poll_faults :
    (Activate sampleDriver envNoMapping 0 (CreateHmdShimDriver 1)).map
        (fun r => (r.2.shim.m_sharedMemory, r.2.shim.m_active)) = .ok (none, true) ∧
    (Activate sampleDriver envNoMapping 0 (CreateHmdShimDriver 1)).bind
        (fun r => BackgroundThread.iteration envLaunchFails r.2) = .error .accessViolation ∧
    Activate sampleDriver envNoView 0 (CreateHmdShimDriver 1) = .error .accessViolation :=
  ⟨rfl, rfl, rfl⟩

/-- C5: for every shim state, `Deactivate` makes its outside calls in this
order: the join of the supervisor thread (made when the active flag was set and
the thread is joinable), `UnmapViewOfFile` on the view (when one is mapped),
the release of the mapping handle (when one is held), and last the wrapped
driver's `Deactivate`, which is called exactly once and on the wrapped state as
it was on entry. At the moment of that call the active flag is already clear,
the view pointer null, the handle empty and the device index invalid, and
they are so on return; the thread member is joinable afterwards only if it
was joinable while the active flag was clear. -/
theorem C5_Deactivate_order (d : ITrackedDeviceServerDriver W P) (m : System W) :
    (Deactivate d m).trace = m.trace
      ++ (if m.shim.m_active && m.shim.m_updateThread then [Event.threadJoin] else [])
      ++ (m.shim.m_sharedMemory.map Event.UnmapViewOfFile).toList
      ++ (m.shim.m_sharedFileHandle.map Event.CloseHandle).toList
      ++ [.shimmed .Deactivate, .DriverLog "Deactivated device shimmed with HmdShimDriver" []] ∧
    ((Deactivate d m).trace.drop m.trace.length).count (.shimmed .Deactivate) = 1 ∧
    (Deactivate d m).device = d.Deactivate m.device ∧
    (Deactivate.teardown m).device = m.device ∧
    (Deactivate.teardown m).shim.m_active = false ∧
    (Deactivate.teardown m).shim.m_sharedMemory = none ∧
    (Deactivate.teardown m).shim.m_sharedFileHandle = none ∧
    (Deactivate.teardown m).shim.m_deviceIndex = k_unTrackedDeviceIndexInvalid ∧
    (Deactivate d m).shim = (Deactivate.teardown m).shim ∧
    (Deactivate d m).shim.m_active = false ∧
    (Deactivate d m).shim.m_sharedMemory = none ∧
    (Deactivate d m).shim.m_sharedFileHandle = none ∧
    (Deactivate d m).shim.m_deviceIndex = k_unTrackedDeviceIndexInvalid ∧
    (Deactivate d m).shim.m_updateThread = (m.shim.m_updateThread && !m.shim.m_active) := by
  obtain ⟨shim, device, shared, g, trace⟩ := m
  obtain ⟨idx, comp, handle, mem, active, thread, info, inClick⟩ := shim
  cases active <;> cases thread <;> cases mem <;> cases handle <;>
    simp [Deactivate, Deactivate.teardown, emit, List.count_cons]

/-- C6: `EnterStandby`, `GetComponent`, `GetPose` and `DebugRequest` forward:
each makes exactly one call, the same-named operation of the wrapped driver
with the same arguments, applies it once to the wrapped state, returns its
result unchanged, and leaves every field of the shim, the shared record and
the helper's pointer unchanged. -/
theorem C6_forwarding (d : ITrackedDeviceServerDriver W P) (m : System W)
    (name : String) (request : String) (size : Nat) :
    EnterStandby d m =
      { m with device := d.EnterStandby m.device, trace := m.trace ++ [.shimmed .EnterStandby] } ∧
    GetComponent d name m =
      ((d.GetComponent m.device name).1,
       { m with device := (d.GetComponent m.device name).2,
                trace := m.trace ++ [.shimmed (.GetComponent name)] }) ∧
    GetPose d m =
      ((d.GetPose m.device).1,
       { m with device := (d.GetPose m.device).2, trace := m.trace ++ [.shimmed .GetPose] }) ∧
    DebugRequest d request size m =
      ((d.DebugRequest m.device request size).1,
       { m with device := (d.DebugRequest m.device request size).2,
                trace := m.trace ++ [.shimmed (.DebugRequest request size)] }) ∧
    (EnterStandby d m).shim = m.shim ∧
    (GetComponent d name m).2.shim = m.shim ∧
    (GetPose d m).2.shim = m.shim ∧
    (DebugRequest d request size m).2.shim = m.shim :=
  ⟨rfl, rfl, rfl, rfl, rfl, rfl, rfl, rfl⟩

/-- The hook procedure with the helper's view mapped, as one equation. -/
theorem CallbackProc_mapped (next : Int → Nat → KBDLLHOOKSTRUCT → Int) (visible : Bool)
    (nCode : Int) (wParam : Nat) (lParam : KBDLLHOOKSTRUCT) (m : System W) (q : Nat)
    (hview : m.g_sharedMemory = some q) :
    CallbackProc next visible nCode wParam lParam m = .ok (next nCode wParam lParam,
      if wParam = WM_KEYDOWN ∧ nCode = HC_ACTION ∧
          (lParam.vkCode = VK_LWIN ∨ lParam.vkCode = VK_RWIN) then
        if visible then
          { m with
            shared := { sendClickEvent := 1 }
            trace := m.trace ++ [.IsDashboardVisible, .CallNextHookEx nCode wParam lParam] }
        else
          { m with
            trace := m.trace ++ [.IsDashboardVisible, .ShowDashboard "system.desktop.1",
              .CallNextHookEx nCode wParam lParam] }
      else
        { m with trace := m.trace ++ [.CallNextHookEx nCode wParam lParam] }) := by
  unfold CallbackProc
  by_cases h1 : wParam = WM_KEYDOWN ∧ nCode = HC_ACTION
  · by_cases h2 : lParam.vkCode = VK_LWIN ∨ lParam.vkCode = VK_RWIN
    · cases visible
      · simp [h1, h2, emit]
      · simp [h1, h2, hview, emit]
    · simp [h1, h2, emit]
  · have h3 : ¬ (wParam = WM_KEYDOWN ∧ nCode = HC_ACTION ∧
        (lParam.vkCode = VK_LWIN ∨ lParam.vkCode = VK_RWIN)) := fun h => h1 ⟨h.1, h.2.1⟩
    simp [h1, h3, emit]

/-- The hook procedure on an event that is not a key-down action of a
Windows key: only `CallNextHookEx` is called. -/
theorem CallbackProc_other (next : Int → Nat → KBDLLHOOKSTRUCT → Int) (visible : Bool)
    (nCode : Int) (wParam : Nat) (lParam : KBDLLHOOKSTRUCT) (m : System W)
    (hother : ¬ (wParam = WM_KEYDOWN ∧ nCode = HC_ACTION ∧
      (lParam.vkCode = VK_LWIN ∨ lParam.vkCode = VK_RWIN))) :
    CallbackProc next visible nCode wParam lParam m = .ok (next nCode wParam lParam,
      { m with trace := m.trace ++ [.CallNextHookEx nCode wParam lParam] }) := by
  unfold CallbackProc
  by_cases h1 : wParam = WM_KEYDOWN ∧ nCode = HC_ACTION
  · have h2 : ¬ (lParam.vkCode = VK_LWIN ∨ lParam.vkCode = VK_RWIN) :=
      fun h => hother ⟨h1.1, h1.2, h⟩
    simp [h1, h2, emit]
  · simp [h1, emit]

/-- The hook procedure on a key-down action of a Windows key with the overlay
hidden: the overlay is requested and the shared record is not touched. -/
theorem CallbackProc_hidden (next : Int → Nat → KBDLLHOOKSTRUCT → Int)
    (nCode : Int) (wParam : Nat) (lParam : KBDLLHOOKSTRUCT) (m : System W)
    (hkey : wParam = WM_KEYDOWN ∧ nCode = HC_ACTION ∧
      (lParam.vkCode = VK_LWIN ∨ lParam.vkCode = VK_RWIN)) :
    CallbackProc next false nCode wParam lParam m = .ok (next nCode wParam lParam,
      { m with
        trace := m.trace ++ [.IsDashboardVisible, .ShowDashboard "system.desktop.1",
          .CallNextHookEx nCode wParam lParam] }) := by
  unfold CallbackProc
  obtain ⟨hw, hn, hk⟩ := hkey
  simp [hw, hn, hk, emit]

/-- C8: the hook procedure, for every hook event. On a key-down action
(`WM_KEYDOWN` with `HC_ACTION`) of the left or right Windows key: with the
overlay hidden it asks for the overlay and leaves the shared record unchanged;
with the overlay visible (and the helper's view mapped, which start-up
guarantees before the hook is installed) it stores 1 in the flag and does not
ask for the overlay. On every other key or message it does neither. In all
cases its last call is `CallNextHookEx` with the event's own arguments and it
returns that call's result. -/
theorem C8_CallbackProc (next : Int → Nat → KBDLLHOOKSTRUCT → Int)
    (nCode : Int) (wParam : Nat) (lParam : KBDLLHOOKSTRUCT) (m : System W) :
    (wParam = WM_KEYDOWN ∧ nCode = HC_ACTION ∧
        (lParam.vkCode = VK_LWIN ∨ lParam.vkCode = VK_RWIN) →
      CallbackProc next false nCode wParam lParam m = .ok (next nCode wParam lParam,
        { m with
          trace := m.trace ++ [.IsDashboardVisible, .ShowDashboard "system.desktop.1",
            .CallNextHookEx nCode wParam lParam] }) ∧
      ∀ q, m.g_sharedMemory = some q →
        CallbackProc next true nCode wParam lParam m = .ok (next nCode wParam lParam,
          { m with
            shared := { sendClickEvent := 1 }
            trace := m.trace ++ [.IsDashboardVisible, .CallNextHookEx nCode wParam lParam] })) ∧
    (¬ (wParam = WM_KEYDOWN ∧ nCode = HC_ACTION ∧
        (lParam.vkCode = VK_LWIN ∨ lParam.vkCode = VK_RWIN)) →
      ∀ visible, CallbackProc next visible nCode wParam lParam m = .ok (next nCode wParam lParam,
        { m with trace := m.trace ++ [.CallNextHookEx nCode wParam lParam] })) := by
  refine ⟨fun hkey => ⟨CallbackProc_hidden next nCode wParam lParam m hkey, fun q hq => ?_⟩,
    fun hother visible => CallbackProc_other next visible nCode wParam lParam m hother⟩
  rw [CallbackProc_mapped next true nCode wParam lParam m q hq]
  simp [hkey]

/-- C8 at a state of the running helper: a right Windows key-down, with the
overlay hidden and with the overlay visible. -/
theorem C8_CallbackProc_witness :
    ((256 : Nat) = WM_KEYDOWN ∧ (0 : Int) = HC_ACTION ∧ ((92 : Nat) = VK_LWIN ∨ (92 : Nat) = VK_RWIN)) ∧
    sampleActive.g_sharedMemory = some 8192 ∧
    CallbackProc sampleNext false 0 256 ⟨92, 92, 1, 0, 0⟩ sampleActive = .ok (0,
      { sampleActive with
        trace := [.IsDashboardVisible, .ShowDashboard "system.desktop.1",
          .CallNextHookEx 0 256 ⟨92, 92, 1, 0, 0⟩] }) ∧
    CallbackProc sampleNext true 0 256 ⟨92, 92, 1, 0, 0⟩ sampleActive = .ok (0,
      { sampleActive with
        shared := { sendClickEvent := 1 }
        trace := [.IsDashboardVisible, .CallNextHookEx 0 256 ⟨92, 92, 1, 0, 0⟩] }) :=
  have hkey : (256 : Nat) = WM_KEYDOWN ∧ (0 : Int) = HC_ACTION ∧
      ((92 : Nat) = VK_LWIN ∨ (92 : Nat) = VK_RWIN) := ⟨rfl, rfl, Or.inr rfl⟩
  have h := (C8_CallbackProc sampleNext 0 256 ⟨92, 92, 1, 0, 0⟩ sampleActive).1 hkey
  ⟨hkey, rfl, h.1, h.2 8192 rfl⟩

/-! ## The flag, the in-click memory and the updates along a schedule -/

/-- What one loop iteration of an active shim with a mapped channel does to the
flag, the in-click memory and the component. -/
theorem iteration_view (env : PollEnv) (m : System W) (p : Nat)
    (hactive : m.shim.m_active = true) (hmem : m.shim.m_sharedMemory = some p) :
    ∃ m', BackgroundThread.iteration env m = .ok (.next m') ∧
      m'.shim.m_active = true ∧ m'.shim.m_sharedMemory = some p ∧
      m'.g_sharedMemory = m.g_sharedMemory ∧
      m'.shared.sendClickEvent = 0 ∧
      m'.shim.m_inClickEvent = decide (m.shared.sendClickEvent ≠ 0) ∧
      updatesOf m'.trace =
        updatesOf m.trace ++ pulse m.shared.sendClickEvent m.shim.m_inClickEvent := by
  obtain ⟨info, t, ht, h⟩ := iteration_mapped env m p hactive hmem
  refine ⟨_, h, hactive, hmem, rfl, rfl, rfl, ?_⟩
  simp only [updatesOf_append, ht, List.append_nil, pulse]
  by_cases hz : m.shared.sendClickEvent = 0
  · cases hin : m.shim.m_inClickEvent <;> simp [hz, updatesOf]
  · simp [hz, updatesOf]

/-- What one invocation of the hook procedure does to the flag; it touches
neither the shim nor the component. -/
theorem callback_view (next : Int → Nat → KBDLLHOOKSTRUCT → Int) (visible : Bool)
    (nCode : Int) (wParam : Nat) (lParam : KBDLLHOOKSTRUCT) (m : System W) (q : Nat)
    (hview : m.g_sharedMemory = some q) :
    ∃ r m', CallbackProc next visible nCode wParam lParam m = .ok (r, m') ∧
      m'.shim = m.shim ∧ m'.g_sharedMemory = some q ∧
      m'.shared.sendClickEvent =
        (if (Action.key visible nCode wParam lParam).isWrite then 1 else m.shared.sendClickEvent) ∧
      updatesOf m'.trace = updatesOf m.trace := by
  rw [CallbackProc_mapped next visible nCode wParam lParam m q hview]
  refine ⟨_, _, rfl, ?_⟩
  by_cases h : wParam = WM_KEYDOWN ∧ nCode = HC_ACTION ∧
      (lParam.vkCode = VK_LWIN ∨ lParam.vkCode = VK_RWIN)
  · obtain ⟨hw, hn, hk⟩ := h
    have hk' : (decide (lParam.vkCode = VK_LWIN) || decide (lParam.vkCode = VK_RWIN)) = true := by
      simpa using hk
    cases visible <;>
      simp [hw, hn, hk, hk', hview, Action.isWrite, updatesOf_append, updatesOf]
  · have hnw : (Action.key visible nCode wParam lParam).isWrite = false := by
      simp only [Action.isWrite, Bool.and_eq_false_iff, Bool.or_eq_false_iff, decide_eq_false_iff_not]
      by_cases hn : nCode = HC_ACTION
      · by_cases hw : wParam = WM_KEYDOWN
        · right
          exact ⟨fun a => h ⟨hw, hn, Or.inl a⟩, fun a => h ⟨hw, hn, Or.inr a⟩⟩
        · exact Or.inl (Or.inr hw)
      · exact Or.inl (Or.inl (Or.inr hn))
    simp [h, hnw, hview, updatesOf_append, updatesOf]

theorem run_append (next : Int → Nat → KBDLLHOOKSTRUCT → Int) (as bs : List Action)
    (l : Loop (System W)) :
    run next (as ++ bs) l = (run next as l).bind (run next bs) := by
  induction as generalizing l with
  | nil => rfl
  | cons a as ih =>
    simp only [List.cons_append, run]
    cases step next a l with
    | error f => rfl
    | ok l' => exact ih l'

theorem observable_getLast (t : List Event) :
    (observable t).getLast? = some (componentValue t) := by
  simp [observable, componentValue, List.getLast?_cons]

theorem noRepeatedFalse_send (u : List Bool) (b : Bool) :
    noRepeatedFalse (false :: (u ++ [b])) ↔
      noRepeatedFalse (false :: u) ∧ (u.getLast?.getD false = true ∨ b = true) := by
  unfold noRepeatedFalse
  rw [← List.cons_append, List.chain'_append]
  simp [List.getLast?_cons]

/-- A poll keeps the shim running and keeps the in-click memory equal to the
value of the component, without ever repeating `false`. -/
theorem poll_tracks (env : PollEnv) (m : System W) (hrun : Running m)
    (hin : m.shim.m_inClickEvent = componentValue m.trace)
    (hnr : noRepeatedFalse (observable m.trace)) :
    ∃ m', BackgroundThread.iteration env m = .ok (.next m') ∧ Running m' ∧
      m'.shim.m_inClickEvent = componentValue m'.trace ∧
      noRepeatedFalse (observable m'.trace) := by
  obtain ⟨ha, hm, hg⟩ := hrun
  obtain ⟨p, hp⟩ := Option.isSome_iff_exists.mp hm
  obtain ⟨m', h, ha', hm', hg', _, hin', hu⟩ := iteration_view env m p ha hp
  refine ⟨m', h, ⟨ha', by simp [hm'], by rw [hg']; exact hg⟩, ?_, ?_⟩
  · rw [hin']
    unfold componentValue
    rw [hu]
    by_cases hz : m.shared.sendClickEvent = 0
    · cases hc : m.shim.m_inClickEvent
      · rw [hc] at hin
        simp [pulse, hz]
        simpa [componentValue] using hin
      · simp [pulse, hz, List.getLast?_concat]
    · simp [pulse, hz, List.getLast?_concat]
  · unfold observable
    rw [hu]
    by_cases hz : m.shared.sendClickEvent = 0
    · cases hc : m.shim.m_inClickEvent
      · simpa [pulse, hz, observable] using hnr
      · rw [hc] at hin
        have : pulse m.shared.sendClickEvent true = [false] := by simp [pulse, hz]
        rw [this, noRepeatedFalse_send]
        exact ⟨hnr, Or.inl (by simpa [componentValue] using hin.symm)⟩
    · have : pulse m.shared.sendClickEvent m.shim.m_inClickEvent = [true] := by simp [pulse, hz]
      rw [this, noRepeatedFalse_send]
      exact ⟨hnr, Or.inr rfl⟩

/-- Any schedule of hook invocations and polls keeps the shim running and keeps
the in-click memory equal to the value of the component, without ever
repeating `false`. -/
theorem run_tracks (next : Int → Nat → KBDLLHOOKSTRUCT → Int) (as : List Action) (m : System W)
    (hrun : Running m) (hin : m.shim.m_inClickEvent = componentValue m.trace)
    (hnr : noRepeatedFalse (observable m.trace)) :
    ∃ m', run next as (.next m) = .ok (.next m') ∧ Running m' ∧
      m'.shim.m_inClickEvent = componentValue m'.trace ∧
      noRepeatedFalse (observable m'.trace) := by
  induction as generalizing m with
  | nil => exact ⟨m, rfl, hrun, hin, hnr⟩
  | cons a as ih =>
    cases a with
    | key visible nCode wParam lParam =>
      obtain ⟨ha, hm, hg⟩ := hrun
      obtain ⟨q, hq⟩ := Option.isSome_iff_exists.mp hg
      obtain ⟨r, m1, h1, hs, hg1, _, hu⟩ := callback_view next visible nCode wParam lParam m q hq
      obtain ⟨m', h', hr', hi', hn'⟩ := ih m1 ⟨by rw [hs]; exact ha, by rw [hs]; exact hm, by simp [hg1]⟩
        (by rw [hs, hin]; simp [componentValue, hu]) (by simpa [observable, hu] using hnr)
      exact ⟨m', by simp [run, step, h1, h'], hr', hi', hn'⟩
    | poll env =>
      obtain ⟨m1, h1, hr1, hi1, hn1⟩ := poll_tracks env m hrun hin hnr
      obtain ⟨m', h', hr', hi', hn'⟩ := ih m1 hr1 hi1 hn1
      exact ⟨m', by simp [run, step, h1, h'], hr', hi', hn'⟩

theorem shared_ext (a b : SharedMemory) (h : a.sendClickEvent = b.sendClickEvent) : a = b := by
  cases a
  cases b
  simpa using h

/-- Polls of an active shim with a clear flag and no click in progress send nothing. -/
theorem run_polls_idle (next : Int → Nat → KBDLLHOOKSTRUCT → Int) (es : List PollEnv)
    (m : System W) (p : Nat)
    (hactive : m.shim.m_active = true) (hmem : m.shim.m_sharedMemory = some p)
    (hflag : m.shared.sendClickEvent = 0) (hin : m.shim.m_inClickEvent = false) :
    ∃ m', run next (polls es) (.next m) = .ok (.next m') ∧
      m'.shim.m_active = true ∧ m'.shim.m_sharedMemory = some p ∧
      m'.g_sharedMemory = m.g_sharedMemory ∧
      m'.shared.sendClickEvent = 0 ∧ m'.shim.m_inClickEvent = false ∧
      updatesOf m'.trace = updatesOf m.trace := by
  induction es generalizing m with
  | nil => exact ⟨m, rfl, hactive, hmem, rfl, hflag, hin, rfl⟩
  | cons e es ih =>
    obtain ⟨m1, h1, ha1, hm1, hg1, hf1, hi1, hu1⟩ := iteration_view e m p hactive hmem
    obtain ⟨m', h', ha', hm', hg', hf', hi', hu'⟩ :=
      ih m1 ha1 hm1 hf1 (by rw [hi1]; simp [hflag])
    refine ⟨m', by simp [polls, run, step, h1] at h' ⊢; exact h', ha', hm', ?_, hf', hi', ?_⟩
    · rw [hg', hg1]
    · rw [hu', hu1]
      simp [pulse, hflag, hin]

/-- Polls of an active shim whose flag is set: the first sends `true`, the
second sends `false`, the later ones send nothing. -/
theorem run_polls_set (next : Int → Nat → KBDLLHOOKSTRUCT → Int) (es : List PollEnv)
    (m : System W) (p : Nat)
    (hactive : m.shim.m_active = true) (hmem : m.shim.m_sharedMemory = some p)
    (hflag : m.shared.sendClickEvent ≠ 0) :
    ∃ m', run next (polls es) (.next m) = .ok (.next m') ∧
      m'.shim.m_active = true ∧ m'.shim.m_sharedMemory = some p ∧
      m'.g_sharedMemory = m.g_sharedMemory ∧
      m'.shared.sendClickEvent = (if es.length = 0 then m.shared.sendClickEvent else 0) ∧
      m'.shim.m_inClickEvent =
        (if es.length = 0 then m.shim.m_inClickEvent else decide (es.length = 1)) ∧
      updatesOf m'.trace = updatesOf m.trace ++ [true, false].take es.length := by
  cases es with
  | nil => exact ⟨m, rfl, hactive, hmem, rfl, by simp, by simp, by simp⟩
  | cons e1 es =>
    obtain ⟨m1, h1, ha1, hm1, hg1, hf1, hi1, hu1⟩ := iteration_view e1 m p hactive hmem
    have hi1' : m1.shim.m_inClickEvent = true := by rw [hi1]; simp [hflag]
    have hu1' : updatesOf m1.trace = updatesOf m.trace ++ [true] := by
      rw [hu1]; simp [pulse, hflag]
    cases es with
    | nil =>
      exact ⟨m1, by simp [polls, run, step, h1], ha1, hm1, hg1, by simp [hf1], by simp [hi1'],
        by simp [hu1']⟩
    | cons e2 es =>
      obtain ⟨m2, h2, ha2, hm2, hg2, hf2, hi2, hu2⟩ := iteration_view e2 m1 p ha1 hm1
      have hi2' : m2.shim.m_inClickEvent = false := by rw [hi2]; simp [hf1]
      have hu2' : updatesOf m2.trace = updatesOf m.trace ++ [true, false] := by
        rw [hu2, hu1']; simp [pulse, hf1, hi1']
      obtain ⟨m', h', ha', hm', hg', hf', hi', hu'⟩ := run_polls_idle next es m2 p ha2 hm2 hf2 hi2'
      refine ⟨m', ?_, ha', hm', ?_, by simp [hf'], by simp [hi'], ?_⟩
      · simp only [polls, List.map_cons, run, step, h1, h2] at h' ⊢
        exact h'
      · rw [hg', hg2, hg1]
      · rw [hu', hu2']
        simp

/-- A run of flag writes by the helper leaves the shim and the component as
they were and, when there is at least one write, the flag at 1. -/
theorem run_writes (next : Int → Nat → KBDLLHOOKSTRUCT → Int) (ws : List Action)
    (m : System W) (hrun : Running m) (hws : ∀ a ∈ ws, a.isWrite = true) :
    ∃ m', run next ws (.next m) = .ok (.next m') ∧ Running m' ∧
      m'.shim = m.shim ∧
      m'.shared.sendClickEvent = (if ws.length = 0 then m.shared.sendClickEvent else 1) ∧
      updatesOf m'.trace = updatesOf m.trace := by
  induction ws generalizing m with
  | nil => exact ⟨m, rfl, hrun, rfl, by simp, rfl⟩
  | cons a ws ih =>
    have ha : a.isWrite = true := hws a (List.mem_cons_self a ws)
    cases a with
    | poll env => simp [Action.isWrite] at ha
    | key visible nCode wParam lParam =>
      obtain ⟨hact, hm, hg⟩ := hrun
      obtain ⟨q, hq⟩ := Option.isSome_iff_exists.mp hg
      obtain ⟨r, m1, h1, hs1, hg1, hf1, hu1⟩ := callback_view next visible nCode wParam lParam m q hq
      rw [ha] at hf1
      obtain ⟨m', h', hr', hs', hf', hu'⟩ := ih m1
        ⟨by rw [hs1]; exact hact, by rw [hs1]; exact hm, by simp [hg1]⟩
        (fun b hb => hws b (List.mem_cons_of_mem _ hb))
      refine ⟨m', by simp [run, step, h1, h'], hr', by rw [hs', hs1], ?_, by rw [hu', hu1]⟩
      rw [hf']
      cases ws <;> simp [hf1]

/-- Polls of an active shim with a clear flag and a click in progress: the
first sends `false`, the later ones send nothing. -/
theorem run_polls_release (next : Int → Nat → KBDLLHOOKSTRUCT → Int) (e : PollEnv)
    (es : List PollEnv) (m : System W) (p : Nat)
    (hactive : m.shim.m_active = true) (hmem : m.shim.m_sharedMemory = some p)
    (hflag : m.shared.sendClickEvent = 0) (hin : m.shim.m_inClickEvent = true) :
    ∃ m', run next (polls (e :: es)) (.next m) = .ok (.next m') ∧
      updatesOf m'.trace = updatesOf m.trace ++ [false] := by
  obtain ⟨m1, h1, ha1, hm1, _, hf1, hi1, hu1⟩ := iteration_view e m p hactive hmem
  obtain ⟨m', h', _, _, _, _, _, hu'⟩ :=
    run_polls_idle next es m1 p ha1 hm1 hf1 (by rw [hi1]; simp [hflag])
  refine ⟨m', ?_, ?_⟩
  · simp only [polls, List.map_cons, run, step, h1] at h' ⊢
    exact h'
  · rw [hu', hu1]
    simp [pulse, hflag, hin]

/-- Consecutive poll intervals that each hold at least one flag write send one
`true` per interval. -/
theorem run_intervals (next : Int → Nat → KBDLLHOOKSTRUCT → Int)
    (rounds : List (List Action × PollEnv)) (m : System W) (hrun : Running m)
    (hrounds : ∀ r ∈ rounds, 1 ≤ r.1.length ∧ ∀ a ∈ r.1, a.isWrite = true) :
    ∃ m', run next (intervals rounds) (.next m) = .ok (.next m') ∧ Running m' ∧
      m'.shared.sendClickEvent = (if rounds.length = 0 then m.shared.sendClickEvent else 0) ∧
      m'.shim.m_inClickEvent = (if rounds.length = 0 then m.shim.m_inClickEvent else true) ∧
      updatesOf m'.trace = updatesOf m.trace ++ List.replicate rounds.length true := by
  induction rounds generalizing m with
  | nil => exact ⟨m, rfl, hrun, by simp, by simp, by simp⟩
  | cons r rs ih =>
    obtain ⟨hlen, hw⟩ := hrounds r (List.mem_cons_self r rs)
    obtain ⟨m1, h1, hr1, hs1, hf1, hu1⟩ := run_writes next r.1 m hrun hw
    have hf1' : m1.shared.sendClickEvent ≠ 0 := by
      rw [hf1]
      have : ¬ r.1.length = 0 := by omega
      simp [this]
    obtain ⟨ha1, hm1, hg1⟩ := hr1
    obtain ⟨p, hp⟩ := Option.isSome_iff_exists.mp hm1
    obtain ⟨m2, h2, ha2, hm2, hg2, hf2, hi2, hu2⟩ := iteration_view r.2 m1 p ha1 hp
    obtain ⟨m', h', hr', hf', hi', hu'⟩ := ih m2 ⟨ha2, by simp [hm2], by rw [hg2]; exact hg1⟩
      (fun x hx => hrounds x (List.mem_cons_of_mem _ hx))
    refine ⟨m', ?_, hr', ?_, ?_, ?_⟩
    · simp only [intervals, run_append, h1, Except.bind, run, step, h2]
      exact h'
    · rw [hf']
      simp [hf2]
    · rw [hi', hi2]
      simp [hf1']
    · rw [hu', hu2, hu1]
      simp [pulse, hf1', List.replicate_succ]

/-- C2: while the shim is active with a mapped channel, after a single write of
a non-zero value `v` to the flag (whatever the flag and the in-click memory
held before), the first poll clears the flag to 0 and sends `true` to the
component, the next poll sends `false`, and no later poll sends anything. When
nothing had been sent to the component before, the values it takes over
'write, poll, poll' are `[false, true, false]`. -/
theorem C2_single_write_pulse (next : Int → Nat → KBDLLHOOKSTRUCT → Int) (m : System W)
    (p v : Nat) (e1 e2 : PollEnv) (es : List PollEnv)
    (hactive : m.shim.m_active = true) (hmem : m.shim.m_sharedMemory = some p) (hv : v ≠ 0) :
    ∃ m1 m2 m3,
      BackgroundThread.iteration e1 { m with shared := { sendClickEvent := v } } = .ok (.next m1) ∧
      m1.shared.sendClickEvent = 0 ∧
      updatesOf m1.trace = updatesOf m.trace ++ [true] ∧
      BackgroundThread.iteration e2 m1 = .ok (.next m2) ∧
      m2.shared.sendClickEvent = 0 ∧
      updatesOf m2.trace = updatesOf m.trace ++ [true, false] ∧
      run next (polls es) (.next m2) = .ok (.next m3) ∧
      updatesOf m3.trace = updatesOf m2.trace ∧
      (updatesOf m.trace = [] → observable m2.trace = [false, true, false]) := by
  obtain ⟨m1, h1, ha1, hm1, _, hf1, hi1, hu1⟩ :=
    iteration_view e1 { m with shared := { sendClickEvent := v } } p hactive hmem
  have hi1' : m1.shim.m_inClickEvent = true := by rw [hi1]; simp [hv]
  have hu1' : updatesOf m1.trace = updatesOf m.trace ++ [true] := by
    rw [hu1]; simp [pulse, hv]
  obtain ⟨m2, h2, ha2, hm2, _, hf2, hi2, hu2⟩ := iteration_view e2 m1 p ha1 hm1
  have hu2' : updatesOf m2.trace = updatesOf m.trace ++ [true, false] := by
    rw [hu2, hu1']; simp [pulse, hf1, hi1']
  obtain ⟨m3, h3, _, _, _, _, _, hu3⟩ :=
    run_polls_idle next es m2 p ha2 hm2 hf2 (by rw [hi2]; simp [hf1])
  exact ⟨m1, m2, m3, h1, hf1, hu1', h2, hf2, hu2', h3, hu3,
    fun h0 => by simp [observable, hu2', h0]⟩

/-- C2 at the state `sampleActive`, with the write of 1 and four polls. -/
theorem C2_single_write_pulse_witness :
    sampleActive.shim.m_active = true ∧ sampleActive.shim.m_sharedMemory = some 4096 ∧ 1 ≠ 0 ∧
    ∃ m1 m2 m3,
      BackgroundThread.iteration envLaunchFails
        { sampleActive with shared := { sendClickEvent := 1 } } = .ok (.next m1) ∧
      m1.shared.sendClickEvent = 0 ∧
      updatesOf m1.trace = updatesOf sampleActive.trace ++ [true] ∧
      BackgroundThread.iteration envExitedRelaunched m1 = .ok (.next m2) ∧
      m2.shared.sendClickEvent = 0 ∧
      updatesOf m2.trace = updatesOf sampleActive.trace ++ [true, false] ∧
      run sampleNext (polls [envLaunchFails, envLaunchFails]) (.next m2) = .ok (.next m3) ∧
      updatesOf m3.trace = updatesOf m2.trace ∧
      (updatesOf sampleActive.trace = [] → observable m2.trace = [false, true, false]) :=
  ⟨rfl, rfl, by decide,
    C2_single_write_pulse sampleNext sampleActive 4096 1 envLaunchFails envExitedRelaunched
      [envLaunchFails, envLaunchFails] rfl rfl (by decide)⟩

/-- C3: the helper's write stores the constant 1, so `ws.length` writes
(at least one) between two polls leave the shared record, the shim and the
component exactly as a single write `w` does, with the flag at 1; and followed
by the same polls, both runs end with the same shared record and in-click
memory and have sent the same updates: `true` on the first poll, `false` on
the second, nothing afterwards. -/
theorem C3_coalescing (next : Int → Nat → KBDLLHOOKSTRUCT → Int) (m : System W)
    (ws : List Action) (w : Action) (es : List PollEnv) (hrun : Running m)
    (hn : 1 ≤ ws.length) (hws : ∀ a ∈ ws, a.isWrite = true) (hw : w.isWrite = true) :
    ∃ mn m1 pn p1,
      run next ws (.next m) = .ok (.next mn) ∧
      run next [w] (.next m) = .ok (.next m1) ∧
      mn.shared = m1.shared ∧ mn.shared.sendClickEvent = 1 ∧ mn.shim = m1.shim ∧
      updatesOf mn.trace = updatesOf m1.trace ∧
      run next (ws ++ polls es) (.next m) = .ok (.next pn) ∧
      run next ([w] ++ polls es) (.next m) = .ok (.next p1) ∧
      pn.shared = p1.shared ∧ pn.shim.m_inClickEvent = p1.shim.m_inClickEvent ∧
      updatesOf pn.trace = updatesOf p1.trace ∧
      updatesOf pn.trace = updatesOf m.trace ++ [true, false].take es.length := by
  obtain ⟨mn, hn1, hrn, hsn, hfn, hun⟩ := run_writes next ws m hrun hws
  obtain ⟨m1, h11, hr1, hs1, hf1, hu1⟩ := run_writes next [w] m hrun
    (fun a ha => by rw [List.mem_singleton.mp ha]; exact hw)
  have hfn' : mn.shared.sendClickEvent = 1 := by
    rw [hfn]
    have : ¬ ws.length = 0 := by omega
    simp [this]
  have hf1' : m1.shared.sendClickEvent = 1 := by simpa using hf1
  obtain ⟨han, hmn, _⟩ := hrn
  obtain ⟨ha1, hm1, _⟩ := hr1
  obtain ⟨a, ha⟩ := Option.isSome_iff_exists.mp hmn
  obtain ⟨b, hb⟩ := Option.isSome_iff_exists.mp hm1
  obtain ⟨pn, hpn, _, _, _, hpf, hpi, hpu⟩ :=
    run_polls_set next es mn a han ha (by rw [hfn']; decide)
  obtain ⟨p1, hp1, _, _, _, hqf, hqi, hqu⟩ :=
    run_polls_set next es m1 b ha1 hb (by rw [hf1']; decide)
  refine ⟨mn, m1, pn, p1, hn1, h11, shared_ext _ _ (by rw [hfn', hf1']), hfn', by rw [hsn, hs1],
    by rw [hun, hu1], ?_, ?_, shared_ext _ _ (by rw [hpf, hqf, hfn', hf1']), ?_, ?_, ?_⟩
  · simp only [run_append, hn1, Except.bind]
    exact hpn
  · simp only [run_append, h11, Except.bind]
    exact hp1
  · rw [hpi, hqi, hsn, hs1]
  · rw [hpu, hqu, hun, hu1]
  · rw [hpu, hun]

/-- C3 at the state `sampleActive`: three writes against one, then three polls. -/
theorem C3_coalescing_witness :
    Running sampleActive ∧ 1 ≤ [winKeyDown, winKeyDown, winKeyDown].length ∧
    (∀ a ∈ [winKeyDown, winKeyDown, winKeyDown], a.isWrite = true) ∧ winKeyDown.isWrite = true ∧
    ∃ mn m1 pn p1,
      run sampleNext [winKeyDown, winKeyDown, winKeyDown] (.next sampleActive) = .ok (.next mn) ∧
      run sampleNext [winKeyDown] (.next sampleActive) = .ok (.next m1) ∧
      mn.shared = m1.shared ∧ mn.shared.sendClickEvent = 1 ∧ mn.shim = m1.shim ∧
      updatesOf mn.trace = updatesOf m1.trace ∧
      run sampleNext ([winKeyDown, winKeyDown, winKeyDown] ++
        polls [envLaunchFails, envLaunchFails, envLaunchFails]) (.next sampleActive) = .ok (.next pn) ∧
      run sampleNext ([winKeyDown] ++
        polls [envLaunchFails, envLaunchFails, envLaunchFails]) (.next sampleActive) = .ok (.next p1) ∧
      pn.shared = p1.shared ∧ pn.shim.m_inClickEvent = p1.shim.m_inClickEvent ∧
      updatesOf pn.trace = updatesOf p1.trace ∧
      updatesOf pn.trace = updatesOf sampleActive.trace ++
        [true, false].take [envLaunchFails, envLaunchFails, envLaunchFails].length :=
  ⟨by decide, by decide, by decide, by decide,
    C3_coalescing sampleNext sampleActive [winKeyDown, winKeyDown, winKeyDown] winKeyDown
      [envLaunchFails, envLaunchFails, envLaunchFails] (by decide) (by decide) (by decide)
      (by decide)⟩

/-- C10: starting from a running shim with the in-click memory `false` and
nothing sent to the component, after every schedule of hook invocations and
polls the in-click memory equals the value of the component (the last value
sent, `false` if none) and the component never received `false` while it was
`false`; a poll after any such schedule sends `true` whenever the exchanged
flag was non-zero; and writes arriving in each of `rounds.length` consecutive
poll intervals, followed by polls without a write, produce that many `true`
updates followed by one `false`. -/
theorem C10_in_click_tracks_component (next : Int → Nat → KBDLLHOOKSTRUCT → Int) (m : System W)
    (hrun : Running m) (hin : m.shim.m_inClickEvent = false) (hfresh : updatesOf m.trace = []) :
    (∀ as : List Action, ∃ m', run next as (.next m) = .ok (.next m') ∧
      m'.shim.m_inClickEvent = componentValue m'.trace ∧
      noRepeatedFalse (observable m'.trace)) ∧
    (∀ (as : List Action) (e : PollEnv), ∃ m1 m2,
      run next as (.next m) = .ok (.next m1) ∧
      BackgroundThread.iteration e m1 = .ok (.next m2) ∧
      updatesOf m2.trace =
        updatesOf m1.trace ++ pulse m1.shared.sendClickEvent m1.shim.m_inClickEvent ∧
      (m1.shared.sendClickEvent ≠ 0 → updatesOf m2.trace = updatesOf m1.trace ++ [true])) ∧
    (∀ (rounds : List (List Action × PollEnv)) (e : PollEnv) (es : List PollEnv),
      1 ≤ rounds.length →
      (∀ r ∈ rounds, 1 ≤ r.1.length ∧ ∀ a ∈ r.1, a.isWrite = true) →
      ∃ m', run next (intervals rounds ++ polls (e :: es)) (.next m) = .ok (.next m') ∧
        updatesOf m'.trace = List.replicate rounds.length true ++ [false]) := by
  have hin0 : m.shim.m_inClickEvent = componentValue m.trace := by
    rw [hin]; simp [componentValue, hfresh]
  have hnr0 : noRepeatedFalse (observable m.trace) := by
    simp [noRepeatedFalse, observable, hfresh]
  refine ⟨?_, ?_, ?_⟩
  · intro as
    obtain ⟨m', h, _, hi, hn⟩ := run_tracks next as m hrun hin0 hnr0
    exact ⟨m', h, hi, hn⟩
  · intro as e
    obtain ⟨m1, h1, ⟨ha, hm, _⟩, _, _⟩ := run_tracks next as m hrun hin0 hnr0
    obtain ⟨p, hp⟩ := Option.isSome_iff_exists.mp hm
    obtain ⟨m2, h2, _, _, _, _, _, hu⟩ := iteration_view e m1 p ha hp
    exact ⟨m1, m2, h1, h2, hu, fun hz => by rw [hu]; simp [pulse, hz]⟩
  · intro rounds e es hk hrounds
    obtain ⟨m1, h1, ⟨ha, hm, _⟩, hf, hi, hu⟩ := run_intervals next rounds m hrun hrounds
    have hk' : ¬ rounds.length = 0 := by omega
    obtain ⟨p, hp⟩ := Option.isSome_iff_exists.mp hm
    obtain ⟨m', h', hu'⟩ := run_polls_release next e es m1 p ha hp
      (by rw [hf]; simp [hk']) (by rw [hi]; simp [hk'])
    refine ⟨m', ?_, ?_⟩
    · simp only [run_append, h1, Except.bind]
      exact h'
    · rw [hu', hu, hfresh]
      simp

/-- C10 at the state `sampleActive`. -/
theorem C10_in_click_tracks_component_witness :
    Running sampleActive ∧ sampleActive.shim.m_inClickEvent = false ∧
    updatesOf sampleActive.trace = [] ∧
    ∃ m', run sampleNext
        (intervals [([winKeyDown], envLaunchFails), ([winKeyDown, winKeyDown], envLaunchFails)] ++
          polls [envLaunchFails, envLaunchFails]) (.next sampleActive) = .ok (.next m') ∧
      updatesOf m'.trace = List.replicate 2 true ++ [false] :=
  ⟨by decide, rfl, rfl,
    (C10_in_click_tracks_component sampleNext sampleActive (by decide) rfl rfl).2.2
      [([winKeyDown], envLaunchFails), ([winKeyDown, winKeyDown], envLaunchFails)]
      envLaunchFails [envLaunchFails] (by decide) (by decide)⟩

/-! ## Supervision of the client process -/

/-- An iteration of an active shim: the sleep, the liveness check, the launch
step, and then the flag step, whose fault is the only one possible. -/
theorem iteration_active (env : PollEnv) (m : System W) (hactive : m.shim.m_active = true) :
    BackgroundThread.iteration env m =
      (BackgroundThread.flagStep
        (BackgroundThread.startClient env
          (BackgroundThread.checkClient env (emit (.sleep_for 5) m)))).map Loop.next := by
  unfold BackgroundThread.iteration
  have ha : (emit (.sleep_for 5) m).shim.m_active = true := hactive
  simp only [ha, Bool.not_true, Bool.false_eq_true, if_false]
  cases BackgroundThread.flagStep
    (BackgroundThread.startClient env (BackgroundThread.checkClient env (emit (.sleep_for 5) m))) <;> rfl

/-- The launch step when no client is recorded. -/
theorem startClient_absent (env : PollEnv) (m : System W)
    (hpid : m.shim.m_clientProcessInfo.dwProcessId = 0) :
    BackgroundThread.startClient env m =
      { m with
        shim := { m.shim with m_clientProcessInfo := launched env m.shim.m_clientProcessInfo }
        trace := m.trace ++ launchCalls env m.shim.m_clientProcessInfo } := by
  unfold BackgroundThread.startClient launchCalls launched
  cases hl : env.launch <;> simp [hpid, emit]

/-- An iteration of an active shim with no client recorded, whatever the
channel: a launch attempt, then the flag step. -/
theorem iteration_absent_phase (env : PollEnv) (m : System W)
    (hactive : m.shim.m_active = true)
    (hpid : m.shim.m_clientProcessInfo.dwProcessId = 0) :
    BackgroundThread.iteration env m =
      (BackgroundThread.flagStep
        { m with
          shim := { m.shim with m_clientProcessInfo := launched env m.shim.m_clientProcessInfo }
          trace := m.trace ++ [.sleep_for 5] ++
            launchCalls env m.shim.m_clientProcessInfo }).map Loop.next := by
  have hc : BackgroundThread.checkClient env (emit (.sleep_for 5) m) = emit (.sleep_for 5) m := by
    simp [BackgroundThread.checkClient, emit, hpid]
  rw [iteration_active env m hactive, hc,
    startClient_absent env _ (by simpa [emit] using hpid)]
  rfl

/-- An iteration of an active shim whose recorded client has exited, whatever
the channel: the handle is closed, the record cleared, a launch attempted, and
then the flag step runs. -/
theorem iteration_exited_phase (env : PollEnv) (m : System W)
    (hactive : m.shim.m_active = true)
    (hpid : m.shim.m_clientProcessInfo.dwProcessId ≠ 0) (hexit : env.waitResult = 0) :
    BackgroundThread.iteration env m =
      (BackgroundThread.flagStep
        { m with
          shim := { m.shim with m_clientProcessInfo := launched env {} }
          trace := m.trace ++
            [.sleep_for 5, .WaitForSingleObject m.shim.m_clientProcessInfo.hProcess 0,
              .CloseHandle m.shim.m_clientProcessInfo.hProcess] ++
            launchCalls env {} }).map Loop.next := by
  have hc : BackgroundThread.checkClient env (emit (.sleep_for 5) m) =
      { m with
        shim := { m.shim with m_clientProcessInfo := {} }
        trace := m.trace ++ [.sleep_for 5, .WaitForSingleObject m.shim.m_clientProcessInfo.hProcess 0,
          .CloseHandle m.shim.m_clientProcessInfo.hProcess] } := by
    simp [BackgroundThread.checkClient, emit, hpid, hexit]
  rw [iteration_active env m hactive, hc, startClient_absent env _ rfl]

/-- An iteration of an active shim with a mapped channel and no client
recorded: a launch attempt, then the flag step. -/
theorem iteration_absent (env : PollEnv) (m : System W) (p : Nat)
    (hactive : m.shim.m_active = true) (hmem : m.shim.m_sharedMemory = some p)
    (hpid : m.shim.m_clientProcessInfo.dwProcessId = 0) :
    BackgroundThread.iteration env m = .ok (.next
      { m with
        shim := { m.shim with
          m_clientProcessInfo := launched env m.shim.m_clientProcessInfo
          m_inClickEvent := decide (m.shared.sendClickEvent ≠ 0) }
        shared := { sendClickEvent := 0 }
        trace := m.trace ++ [.sleep_for 5] ++ launchCalls env m.shim.m_clientProcessInfo ++
          flagCalls m.shim.m_clickComponent m.shared.sendClickEvent m.shim.m_inClickEvent }) := by
  rw [iteration_absent_phase env m hactive hpid, flagStep_mapped _ p (by simpa using hmem)]
  simp [flagCalls, Except.map, List.append_assoc]

/-- An iteration of an active shim with a mapped channel whose recorded client
has exited. -/
theorem iteration_exited (env : PollEnv) (m : System W) (p : Nat)
    (hactive : m.shim.m_active = true) (hmem : m.shim.m_sharedMemory = some p)
    (hpid : m.shim.m_clientProcessInfo.dwProcessId ≠ 0) (hexit : env.waitResult = 0) :
    BackgroundThread.iteration env m = .ok (.next
      { m with
        shim := { m.shim with
          m_clientProcessInfo := launched env {}
          m_inClickEvent := decide (m.shared.sendClickEvent ≠ 0) }
        shared := { sendClickEvent := 0 }
        trace := m.trace ++
          [.sleep_for 5, .WaitForSingleObject m.shim.m_clientProcessInfo.hProcess 0,
            .CloseHandle m.shim.m_clientProcessInfo.hProcess] ++
          launchCalls env {} ++
          flagCalls m.shim.m_clickComponent m.shared.sendClickEvent m.shim.m_inClickEvent }) := by
  rw [iteration_exited_phase env m hactive hpid hexit, flagStep_mapped _ p (by simpa using hmem)]
  simp [flagCalls, Except.map, List.append_assoc]

/-- An iteration of an active shim with a mapped channel whose recorded client
is still running: the liveness check and the flag step, no launch attempt. -/
theorem iteration_alive (env : PollEnv) (m : System W) (p : Nat)
    (hactive : m.shim.m_active = true) (hmem : m.shim.m_sharedMemory = some p)
    (hpid : m.shim.m_clientProcessInfo.dwProcessId ≠ 0) (halive : env.waitResult ≠ 0) :
    BackgroundThread.iteration env m = .ok (.next
      { m with
        shim := { m.shim with m_inClickEvent := decide (m.shared.sendClickEvent ≠ 0) }
        shared := { sendClickEvent := 0 }
        trace := m.trace ++
          [.sleep_for 5, .WaitForSingleObject m.shim.m_clientProcessInfo.hProcess 0] ++
          flagCalls m.shim.m_clickComponent m.shared.sendClickEvent m.shim.m_inClickEvent }) := by
  have hc : BackgroundThread.checkClient env (emit (.sleep_for 5) m) =
      { m with
        trace := m.trace ++ [.sleep_for 5, .WaitForSingleObject m.shim.m_clientProcessInfo.hProcess 0] } := by
    simp [BackgroundThread.checkClient, emit, hpid, halive]
  have hs : ∀ x : System W, x.shim.m_clientProcessInfo.dwProcessId ≠ 0 →
      BackgroundThread.startClient env x = x := by
    intro x hx
    simp [BackgroundThread.startClient, hx]
  rw [iteration_active env m hactive, hc, hs _ (by simpa using hpid),
    flagStep_mapped _ p (by simpa using hmem)]
  simp [flagCalls, Except.map, List.append_assoc]

theorem launchAttempts_launchCalls (env : PollEnv) (old : PROCESS_INFORMATION) :
    launchAttempts (launchCalls env old) = 1 := by
  unfold launchCalls
  cases env.launch <;> simp [launchAttempts]

theorem launchAttempts_flagCalls (c f : Nat) (b : Bool) : launchAttempts (flagCalls c f b) = 0 := by
  unfold flagCalls
  by_cases hf : f = 0
  · cases b <;> simp [hf, launchAttempts]
  · simp [hf, launchAttempts]

theorem launchCalls_head (env : PollEnv) (old : PROCESS_INFORMATION) :
    (launchCalls env old).head? =
      some (.CreateProcess (env.modulePath.dropLast ++ ["client_utility.exe"])
        env.modulePath.dropLast.dropLast.dropLast) := by
  simp [launchCalls]

theorem launchCalls_no_exchange (env : PollEnv) (old : PROCESS_INFORMATION) (v : Nat)
    (pre : List Event) (hpre : Event.InterlockedExchange v ∉ pre) :
    Event.InterlockedExchange v ∉ pre ++ launchCalls env old := by
  unfold launchCalls
  cases env.launch <;> simpa using hpre

/-- C7: in every iteration of an active shim that starts with no client
recorded (process id 0), whatever the channel, the sleep and the launch
attempt (which starts with `CreateProcess` and contains no exchange) come
first and the flag step, with its read of the shared flag, runs after them,
on a record that a failed launch has left unchanged. With the channel mapped,
so that the flag step itself cannot fault, the iteration completes normally;
when the launch failed the record still has process id 0 and the next
iteration completes too and makes a launch attempt again. -/
theorem C7_launch_before_flag_read (env env2 : PollEnv) (m : System W)
    (hactive : m.shim.m_active = true)
    (hpid : m.shim.m_clientProcessInfo.dwProcessId = 0) :
    BackgroundThread.iteration env m =
      (BackgroundThread.flagStep
        { m with
          shim := { m.shim with m_clientProcessInfo := launched env m.shim.m_clientProcessInfo }
          trace := m.trace ++ [.sleep_for 5] ++
            launchCalls env m.shim.m_clientProcessInfo }).map Loop.next ∧
    (launchCalls env m.shim.m_clientProcessInfo).head? =
      some (.CreateProcess (env.modulePath.dropLast ++ ["client_utility.exe"])
        env.modulePath.dropLast.dropLast.dropLast) ∧
    (∀ v, Event.InterlockedExchange v ∉
      [Event.sleep_for 5] ++ launchCalls env m.shim.m_clientProcessInfo) ∧
    (∀ code, env.launch = .error code →
      launched env m.shim.m_clientProcessInfo = m.shim.m_clientProcessInfo) ∧
    (∀ p, m.shim.m_sharedMemory = some p →
      ∃ m', BackgroundThread.iteration env m = .ok (.next m') ∧
        m'.trace = m.trace ++ [.sleep_for 5] ++ launchCalls env m.shim.m_clientProcessInfo ++
          flagCalls m.shim.m_clickComponent m.shared.sendClickEvent m.shim.m_inClickEvent ∧
        (flagCalls m.shim.m_clickComponent m.shared.sendClickEvent m.shim.m_inClickEvent).head? =
          some (.InterlockedExchange 0) ∧
        launchAttempts m'.trace = launchAttempts m.trace + 1 ∧
        (∀ code, env.launch = .error code →
          m'.shim.m_clientProcessInfo = m.shim.m_clientProcessInfo ∧
          m'.shim.m_clientProcessInfo.dwProcessId = 0 ∧
          ∃ m'', BackgroundThread.iteration env2 m' = .ok (.next m'') ∧
            m''.trace = m'.trace ++ [.sleep_for 5] ++
              launchCalls env2 m'.shim.m_clientProcessInfo ++
              flagCalls m'.shim.m_clickComponent m'.shared.sendClickEvent m'.shim.m_inClickEvent ∧
            launchAttempts m''.trace = launchAttempts m'.trace + 1)) := by
  have h1 : launchAttempts [Event.sleep_for 5] = 0 := rfl
  have hl : ∀ code, env.launch = .error code →
      launched env m.shim.m_clientProcessInfo = m.shim.m_clientProcessInfo := by
    intro code hcode
    simp [launched, hcode]
  refine ⟨iteration_absent_phase env m hactive hpid, launchCalls_head env _,
    fun v => launchCalls_no_exchange env _ v _ (by simp), hl, ?_⟩
  intro p hmem
  refine ⟨_, iteration_absent env m p hactive hmem hpid, rfl, by simp [flagCalls], ?_, ?_⟩
  · simp only [launchAttempts_append, launchAttempts_launchCalls, launchAttempts_flagCalls, h1]
  · intro code hcode
    refine ⟨hl code hcode, by rw [hl code hcode]; exact hpid, _,
      iteration_absent env2 _ p hactive hmem ?_, rfl, ?_⟩
    · show (launched env m.shim.m_clientProcessInfo).dwProcessId = 0
      rw [hl code hcode]; exact hpid
    · simp only [launchAttempts_append, launchAttempts_launchCalls, launchAttempts_flagCalls, h1]

/-- C7 at the state `sampleActive`, the launch failing with error 2. -/
theorem C7_launch_before_flag_read_witness :
    sampleActive.shim.m_active = true ∧
    sampleActive.shim.m_clientProcessInfo.dwProcessId = 0 ∧
    sampleActive.shim.m_sharedMemory = some 4096 ∧
    ∃ m', BackgroundThread.iteration envLaunchFails sampleActive = .ok (.next m') ∧
      m'.shim.m_clientProcessInfo.dwProcessId = 0 ∧
      ∃ m'', BackgroundThread.iteration envLaunchFails m' = .ok (.next m'') ∧
        launchAttempts m''.trace = launchAttempts m'.trace + 1 := by
  obtain ⟨m', h, _, _, _, hfail⟩ :=
    (C7_launch_before_flag_read envLaunchFails envLaunchFails sampleActive rfl rfl).2.2.2.2 4096 rfl
  obtain ⟨_, hp, m'', h2, _, ha⟩ := hfail 2 rfl
  exact ⟨rfl, rfl, rfl, m', h, hp, m'', h2, ha⟩

/-- C9 as stated fails: the client of `sampleSupervising` has exited when the
supervisor polls (answers `envExitedRelaunched`); that iteration already makes
the one launch attempt and records the new process 4242, and the following
iteration, in which the new process is running, makes no launch attempt: its
calls are the sleep, the liveness check and the exchange. -/
theorem C9_following_iteration_makes_no_attempt :
    sampleSupervising.shim.m_clientProcessInfo.dwProcessId = 4141 ∧
    envExitedRelaunched.waitResult = 0 ∧
    ((BackgroundThread.iteration envExitedRelaunched sampleSupervising).bind fun l1 =>
      (BackgroundThread.iteration envLaunchFails l1.state).map fun l2 =>
        (l1.state.shim.m_clientProcessInfo.dwProcessId, launchAttempts l1.state.trace,
          launchAttempts l2.state.trace, l2.state.trace.drop l1.state.trace.length)) =
      .ok (4242, 1, 1,
        [.sleep_for 5, .WaitForSingleObject 60 0, .InterlockedExchange 0]) :=
  ⟨rfl, rfl, rfl⟩

/-- C9 (amended): when a client is recorded and has exited at the poll
(`WaitForSingleObject` returns 0), that iteration of an active shim, whatever
the channel, checks the process, closes its handle, clears the record and
makes a launch attempt in the same iteration, before the flag step; the record
the flag step sees is what that attempt left (the new process, or the cleared
record when it failed). With the channel mapped the iteration completes with
exactly these calls, and when the relaunch failed the following iteration
makes a launch attempt again. -/
theorem C9_exited_client_relaunched (env env2 : PollEnv) (m : System W)
    (hactive : m.shim.m_active = true)
    (hpid : m.shim.m_clientProcessInfo.dwProcessId ≠ 0) (hexit : env.waitResult = 0) :
    BackgroundThread.iteration env m =
      (BackgroundThread.flagStep
        { m with
          shim := { m.shim with m_clientProcessInfo := launched env {} }
          trace := m.trace ++
            [.sleep_for 5, .WaitForSingleObject m.shim.m_clientProcessInfo.hProcess 0,
              .CloseHandle m.shim.m_clientProcessInfo.hProcess] ++
            launchCalls env {} }).map Loop.next ∧
    (launchCalls env {}).head? =
      some (.CreateProcess (env.modulePath.dropLast ++ ["client_utility.exe"])
        env.modulePath.dropLast.dropLast.dropLast) ∧
    (∀ v, Event.InterlockedExchange v ∉
      [Event.sleep_for 5, .WaitForSingleObject m.shim.m_clientProcessInfo.hProcess 0,
        .CloseHandle m.shim.m_clientProcessInfo.hProcess] ++ launchCalls env {}) ∧
    (∀ code, env.launch = .error code → launched env {} = {}) ∧
    (∀ p, m.shim.m_sharedMemory = some p →
      ∃ m', BackgroundThread.iteration env m = .ok (.next m') ∧
        m'.trace = m.trace ++
          [.sleep_for 5, .WaitForSingleObject m.shim.m_clientProcessInfo.hProcess 0,
            .CloseHandle m.shim.m_clientProcessInfo.hProcess] ++
          launchCalls env {} ++
          flagCalls m.shim.m_clickComponent m.shared.sendClickEvent m.shim.m_inClickEvent ∧
        m'.shim.m_clientProcessInfo = launched env {} ∧
        launchAttempts m'.trace = launchAttempts m.trace + 1 ∧
        (∀ code, env.launch = .error code →
          m'.shim.m_clientProcessInfo = {} ∧
          ∃ m'', BackgroundThread.iteration env2 m' = .ok (.next m'') ∧
            launchAttempts m''.trace = launchAttempts m'.trace + 1)) := by
  have h0 : ∀ h : Nat,
      launchAttempts [Event.sleep_for 5, .WaitForSingleObject h 0, .CloseHandle h] = 0 :=
    fun _ => rfl
  have h1 : launchAttempts [Event.sleep_for 5] = 0 := rfl
  have hl : ∀ code, env.launch = .error code → launched env {} = {} := by
    intro code hcode
    simp [launched, hcode]
  refine ⟨iteration_exited_phase env m hactive hpid hexit, launchCalls_head env _,
    fun v => launchCalls_no_exchange env _ v _ (by simp), hl, ?_⟩
  intro p hmem
  refine ⟨_, iteration_exited env m p hactive hmem hpid hexit, rfl, rfl, ?_, ?_⟩
  · simp only [launchAttempts_append, launchAttempts_launchCalls, launchAttempts_flagCalls, h0]
  · intro code hcode
    refine ⟨hl code hcode, _, iteration_absent env2 _ p hactive hmem ?_, ?_⟩
    · show (launched env {}).dwProcessId = 0
      rw [hl code hcode]
    · simp only [launchAttempts_append, launchAttempts_launchCalls, launchAttempts_flagCalls, h1]

/-- C9 (amended) at the state `sampleSupervising`, the relaunch succeeding. -/
theorem C9_exited_client_relaunched_witness :
    sampleSupervising.shim.m_active = true ∧
    sampleSupervising.shim.m_clientProcessInfo.dwProcessId ≠ 0 ∧
    envExitedRelaunched.waitResult = 0 ∧
    sampleSupervising.shim.m_sharedMemory = some 4096 ∧
    ∃ m', BackgroundThread.iteration envExitedRelaunched sampleSupervising = .ok (.next m') ∧
      m'.shim.m_clientProcessInfo = launched envExitedRelaunched {} ∧
      launchAttempts m'.trace = launchAttempts sampleSupervising.trace + 1 := by
  obtain ⟨m', h, _, hi, ha, _⟩ :=
    (C9_exited_client_relaunched envExitedRelaunched envLaunchFails sampleSupervising rfl
      (by decide) rfl).2.2.2.2 4096 rfl
  exact ⟨rfl, by decide, rfl, rfl, m', h, hi, ha⟩

end KeyboardNav
